import Mathlib

/-!
Shallow embedding of the data-collection core of the `aws-ai-cost-optimizer`
repository, together with proofs of the specification claims about it.

Conventions used throughout:
* Python `float` values are modelled as exact rationals (`ℚ`); the amount
  strings appearing in Cost Explorer responses are plain decimal literals, and
  `pyFloat` below parses them the way `float()` does on such strings.
* Python dicts with a fixed literal key set are modelled as structures; dicts
  used as growing maps are modelled as association lists in insertion order,
  which is the iteration order Python guarantees.
* Calls into the AWS SDK are modelled as environments (functions or records
  supplying the response of each remote call, as an `Except` value: `.error`
  models the SDK call raising).
* `datetime.utcnow()` is modelled as an explicit parameter.
-/

namespace AwsCostOpt

/-- Numeric value of one decimal digit character. -/
def digitVal (c : Char) : ℕ := c.toNat - 48

/-- Value of a string of decimal digits, most significant first. -/
def digitsVal (l : List Char) : ℕ := l.foldl (fun n c => 10 * n + digitVal c) 0

/-- Value of an unsigned decimal literal `⟨int⟩` or `⟨int⟩.⟨frac⟩`. -/
def decimalVal (l : List Char) : ℚ :=
  let intPart := l.takeWhile (fun c => ¬ c = '.')
  let fracPart := (l.dropWhile (fun c => ¬ c = '.')).drop 1
  (digitsVal intPart : ℚ) + (digitsVal fracPart : ℚ) / (10 : ℚ) ^ fracPart.length

/-- Python's `float()` applied to the decimal amount strings found in Cost
Explorer responses (optional leading minus, digits, optional fraction),
modelled as an exact rational. -/
def pyFloat (s : String) : ℚ :=
  match s.data with
  | '-' :: l => -(decimalVal l)
  | l => decimalVal l

/-! ### Cost Explorer response data model

Shape of `get_cost_and_usage` responses, as far as the repository reads them:
`{ResultsByTime: [{TimePeriod: {Start, End}, Groups: [{Keys: [...],
Metrics: {AmortizedCost: {Amount, Unit}, ...}}]}]}`. -/

/-- One metric entry of a response group: the `{'Amount': ..., 'Unit': ...}` dict. -/
structure MetricValue where
  Amount : String
  Unit : String
deriving DecidableEq, Repr

/-- The `Metrics` dict of a response group, holding the three metrics the
collectors request (`fetch_cost_data` requests all three; `get_daily_costs`
and friends request subsets, which we model by ignoring the unused fields). -/
structure GroupMetrics where
  AmortizedCost : MetricValue
  UsageQuantity : MetricValue
  UnblendedCost : MetricValue
deriving DecidableEq, Repr

/-- One `Groups` entry of a response time period. -/
structure CEGroup where
  Keys : List String
  Metrics : GroupMetrics
deriving DecidableEq, Repr

/-- The `TimePeriod` dict of a response time period. -/
structure CETimePeriod where
  Start : String
  End : String
deriving DecidableEq, Repr

/-- One `ResultsByTime` entry of a Cost Explorer response. -/
structure CEResultByTime where
  TimePeriod : CETimePeriod
  Groups : List CEGroup
deriving DecidableEq, Repr

/-- A raw Cost Explorer `get_cost_and_usage` response. -/
structure CEResponse where
  ResultsByTime : List CEResultByTime
deriving DecidableEq, Repr

/-- Values stored in the heterogeneous summary dicts: strings or floats. -/
inductive PyVal where
  | str : String → PyVal
  | num : ℚ → PyVal
deriving DecidableEq, Repr

/-- A Python dict with string keys, as the collectors build them: an
association list in key-insertion order. -/
abbrev PyDict := List (String × PyVal)

/-- All groups of a response, in response order (spec-side accessor). -/
def allGroups (resp : CEResponse) : List CEGroup :=
  resp.ResultsByTime.flatMap (·.Groups)

/-! ### `src/collectors/cost_explorer.py` -/

/-- The `Metrics` list that `CostExplorerCollector.fetch_cost_data`
(src/collectors/cost_explorer.py:60) puts in its request. -/
def fetch_cost_data_metrics : List String :=
  ["AmortizedCost", "UsageQuantity", "UnblendedCost"]

/-- `CostExplorerCollector.process_cost_data`
(src/collectors/cost_explorer.py:159-190).  Nested `for` loops appending one
summary dict per (time period, group); `now` stands for
`datetime.utcnow().isoformat()`. -/
def process_cost_data (raw : CEResponse) (now : String) : List PyDict :=
  raw.ResultsByTime.foldl (fun summaries time_period =>
    let date := time_period.TimePeriod.Start
    time_period.Groups.foldl (fun summaries g =>
      let service := g.Keys.getD 0 "Unknown"
      let resource_id := g.Keys.getD 1 "N/A"
      let amortized_cost := pyFloat g.Metrics.AmortizedCost.Amount
      let usage_quantity := pyFloat g.Metrics.UsageQuantity.Amount
      summaries ++
        [[("date", PyVal.str date),
          ("service", PyVal.str service),
          ("resource_id", PyVal.str resource_id),
          ("amortized_cost", PyVal.num amortized_cost),
          ("usage_quantity", PyVal.num usage_quantity),
          ("timestamp", PyVal.str now)]]) summaries) []

/-- The flattening described by the specification: one record per
(time period, group) pair, primary key or `"Unknown"`, secondary key or
`"N/A"`, float conversions of the amount strings.  Spec-side reading, stated
independently of the loop structure of `process_cost_data`. -/
def specCostRecords (raw : CEResponse) (now : String) : List PyDict :=
  raw.ResultsByTime.flatMap fun tp =>
    tp.Groups.map fun g =>
      [("date", PyVal.str tp.TimePeriod.Start),
       ("service", PyVal.str (match g.Keys with | [] => "Unknown" | k :: _ => k)),
       ("resource_id", PyVal.str (match g.Keys with | _ :: k :: _ => k | _ => "N/A")),
       ("amortized_cost", PyVal.num (pyFloat g.Metrics.AmortizedCost.Amount)),
       ("usage_quantity", PyVal.num (pyFloat g.Metrics.UsageQuantity.Amount)),
       ("timestamp", PyVal.str now)]

/-! ### Growing dicts of rationals

`d[k] = d.get(k, 0.0) + c` on a Python dict: update in place when the key is
present, append at the end when it is new (Python dicts preserve insertion
order). -/

/-- Add `c` to key `k` of the dict `m`, inserting `(k, c)` when absent. -/
def bump : List (String × ℚ) → String → ℚ → List (String × ℚ)
  | [], k, c => [(k, c)]
  | (k', v) :: rest, k, c =>
    if k' = k then (k', v + c) :: rest else (k', v) :: bump rest k c

/-- Fold a list of (key, amount) pairs into a dict with `bump`, starting from
`init`.  The loops of `_aggregate_service_costs` and `_parse_tagged_costs`
reduce to this. -/
def tallyPairs (init : List (String × ℚ)) (l : List (String × ℚ)) : List (String × ℚ) :=
  l.foldl (fun m p => bump m p.1 p.2) init

/-- The keys of `l` that are not in `seen`, in first-appearance order.
`newKeys [] l` is Python dict-key order / pandas `unique` order. -/
def newKeys (seen : List String) : List String → List String
  | [] => []
  | x :: xs => if x ∈ seen then newKeys seen xs else x :: newKeys (seen ++ [x]) xs

/-- Distinct elements of `l` in first-appearance order. -/
def uniqueKeep (l : List String) : List String := newKeys [] l

/-- Sum of the amounts of the pairs of `l` whose key is `k`. -/
def keyedSum (k : String) (l : List (String × ℚ)) : ℚ :=
  ((l.filter fun p => p.1 = k).map Prod.snd).sum

/-! ### `src/data_collection/cost_explorer/collector.py` -/

/-- `lst[i]` in Python: the value, or an `IndexError` when out of range. -/
def pyIndex (l : List α) (i : ℕ) : Except String α :=
  match l[i]? with
  | some x => Except.ok x
  | none => Except.error "IndexError: list index out of range"

/-- One `{'service': ..., 'cost': ...}` entry of `_aggregate_service_costs`. -/
structure ServiceCost where
  service : String
  cost : ℚ
deriving DecidableEq, Repr

/-- Loop body of `_aggregate_service_costs`
(src/data_collection/cost_explorer/collector.py:265-271): `group['Keys'][0]`
is a raw index, so a group with an empty key list raises (`Except.error`);
otherwise the cost is tallied under the first key. -/
def svcStep (service_costs : List (String × ℚ)) (g : CEGroup) :
    Except String (List (String × ℚ)) := do
  let service_name ← pyIndex g.Keys 0
  let cost := pyFloat g.Metrics.UnblendedCost.Amount
  pure (bump service_costs service_name cost)

/-- The `service_costs` dict-building loop of
`CostExplorerCollector._aggregate_service_costs`
(src/data_collection/cost_explorer/collector.py:261-271). -/
def serviceTally (resp : CEResponse) : Except String (List (String × ℚ)) :=
  resp.ResultsByTime.foldlM (fun service_costs result =>
    result.Groups.foldlM svcStep service_costs) []

/-- `CostExplorerCollector._aggregate_service_costs`
(src/data_collection/cost_explorer/collector.py:259-280): tally per-service
costs, then `sorted(..., key=lambda x: x['cost'], reverse=True)`.  Python's
sort is stable, so it is modelled by the stable `List.insertionSort` with the
relation «earlier when cost is not smaller». -/
def aggregate_service_costs (resp : CEResponse) : Except String (List ServiceCost) := do
  let service_costs ← serviceTally resp
  pure (List.insertionSort (fun a b => b.cost ≤ a.cost)
    (service_costs.map fun p => { service := p.1, cost := p.2 }))

/-- Result dict of `_parse_tagged_costs`. -/
structure TaggedCosts where
  tag_key : String
  by_tag_value : List (String × ℚ)
  untagged_cost : ℚ
deriving DecidableEq, Repr

/-- The tag value the loop body of `_parse_tagged_costs` computes:
`group['Keys'][0] if group['Keys'] else 'untagged'`. -/
def tagValueOf (g : CEGroup) : String :=
  match g.Keys with
  | [] => "untagged"
  | k :: _ => k

/-- The cost the loop body reads: `float(group['Metrics']['UnblendedCost']['Amount'])`. -/
def groupCost (g : CEGroup) : ℚ := pyFloat g.Metrics.UnblendedCost.Amount

/-- `resp` with the key list of every group whose computed tag value is the
literal `'untagged'` replaced by the empty (missing) key list: the transform
under which `_parse_tagged_costs` cannot distinguish a resource genuinely
tagged `'untagged'` from an untagged one. -/
def eraseUntaggedKeys (resp : CEResponse) : CEResponse :=
  { ResultsByTime := resp.ResultsByTime.map fun tp =>
      { tp with Groups := tp.Groups.map fun g =>
          if tagValueOf g = "untagged" then { g with Keys := [] } else g } }

/-- Loop body of `_parse_tagged_costs`
(src/data_collection/cost_explorer/collector.py:310-318): an empty key list
yields the sentinel `'untagged'`; a tag value of `'untagged'` or `''` is
added to `untagged_cost`, anything else is tallied into `by_tag_value`. -/
def tagStep (tagged_costs : TaggedCosts) (g : CEGroup) : TaggedCosts :=
  let tag_value := tagValueOf g
  let cost := groupCost g
  if tag_value = "untagged" ∨ tag_value = "" then
    { tagged_costs with untagged_cost := tagged_costs.untagged_cost + cost }
  else
    { tagged_costs with by_tag_value := bump tagged_costs.by_tag_value tag_value cost }

/-- `CostExplorerCollector._parse_tagged_costs`
(src/data_collection/cost_explorer/collector.py:300-320). -/
def parse_tagged_costs (resp : CEResponse) (tagKey : String) : TaggedCosts :=
  resp.ResultsByTime.foldl (fun tagged_costs result =>
    result.Groups.foldl tagStep tagged_costs)
    { tag_key := tagKey, by_tag_value := [], untagged_cost := 0 }

/-- Whether the loop body of `_parse_tagged_costs` treats a group as
untagged: its computed tag value is the literal `'untagged'` (also the
sentinel for a missing key) or the empty string. -/
def isUntaggedVal (g : CEGroup) : Bool :=
  tagValueOf g = "untagged" ∨ tagValueOf g = ""

/-- The first key of a group, as `_aggregate_service_costs` reads it
(spec-side accessor; only used under the hypothesis that the key list is
non-empty, where it equals `group['Keys'][0]`). -/
def svcName (g : CEGroup) : String := g.Keys.headD ""

/-- The per-service totals of a response in first-appearance (original
response) order: the `service_costs` dict as a list of `{service, cost}`
entries before sorting. -/
def serviceCostsList (resp : CEResponse) : List ServiceCost :=
  (tallyPairs [] ((allGroups resp).map fun g => (svcName g, groupCost g))).map
    fun p => { service := p.1, cost := p.2 }

/-! ### `src/collectors/cloudwatch_metrics.py` -/

/-- One entry of a `METRICS_CONFIG` metric list. -/
structure MetricCfg where
  Name : String
  Stat : String
  Unit : String
deriving DecidableEq, Repr

/-- One `METRICS_CONFIG` category value. -/
structure ResourceCfg where
  Namespace : String
  Metrics : List MetricCfg
  DimensionName : String
deriving DecidableEq, Repr

/-- `CloudWatchCollector.METRICS_CONFIG` (src/collectors/cloudwatch_metrics.py:21-54). -/
def METRICS_CONFIG : List (String × ResourceCfg) :=
  [("EC2",
    { Namespace := "AWS/EC2",
      Metrics :=
        [{ Name := "CPUUtilization", Stat := "Average", Unit := "Percent" },
         { Name := "NetworkIn", Stat := "Sum", Unit := "Bytes" },
         { Name := "NetworkOut", Stat := "Sum", Unit := "Bytes" },
         { Name := "DiskReadBytes", Stat := "Sum", Unit := "Bytes" },
         { Name := "DiskWriteBytes", Stat := "Sum", Unit := "Bytes" }],
      DimensionName := "InstanceId" }),
   ("RDS",
    { Namespace := "AWS/RDS",
      Metrics :=
        [{ Name := "CPUUtilization", Stat := "Average", Unit := "Percent" },
         { Name := "DatabaseConnections", Stat := "Average", Unit := "Count" },
         { Name := "FreeStorageSpace", Stat := "Average", Unit := "Bytes" },
         { Name := "ReadLatency", Stat := "Average", Unit := "Seconds" },
         { Name := "WriteLatency", Stat := "Average", Unit := "Seconds" }],
      DimensionName := "DBInstanceIdentifier" }),
   ("Lambda",
    { Namespace := "AWS/Lambda",
      Metrics :=
        [{ Name := "Duration", Stat := "Average", Unit := "Milliseconds" },
         { Name := "Invocations", Stat := "Sum", Unit := "Count" },
         { Name := "Errors", Stat := "Sum", Unit := "Count" },
         { Name := "ConcurrentExecutions", Stat := "Maximum", Unit := "Count" }],
      DimensionName := "FunctionName" })]

/-- One CloudWatch datapoint: required `Timestamp`, the statistic values that
are present (`dp.get(stat, 0)` reads them with default `0`), and the `Unit`
key when present. -/
structure Datapoint where
  Timestamp : ℤ
  Stats : List (String × ℚ)
  Unit : Option String
deriving DecidableEq, Repr

/-- The `params` dict `get_metric_statistics` sends to
`cloudwatch.get_metric_statistics`. -/
structure MetricQuery where
  Namespace : String
  MetricName : String
  Dimensions : List (String × String)
  StartTime : ℤ
  EndTime : ℤ
  Period : ℕ
  Statistics : List String
  Unit : Option String
deriving DecidableEq, Repr

/-- The CloudWatch API, as an environment: what
`cloudwatch.get_metric_statistics(**params)` returns for each query
(`.error` models the SDK call raising). -/
abbrev CWEnv := MetricQuery → Except String (List Datapoint)

/-- `datapoints.sort(key=lambda x: x['Timestamp'])`: Python's stable sort,
modelled by the stable `List.insertionSort`. -/
def sortDatapoints (dps : List Datapoint) : List Datapoint :=
  List.insertionSort (fun a b => a.Timestamp ≤ b.Timestamp) dps

/-- `CloudWatchCollector.get_metric_statistics`
(src/collectors/cloudwatch_metrics.py:68-116).  The `try` block re-raises, so
an API error passes through; a successful response is sorted by timestamp.
`if unit: params['Unit'] = unit` tests Python truthiness, so an empty string
behaves like `None`. -/
def get_metric_statistics (env : CWEnv) (ns metric_name : String)
    (dimensions : List (String × String)) (start_time end_time : ℤ)
    (period : ℕ) (statistics : Option (List String)) (unit : Option String) :
    Except String (List Datapoint) :=
  let statistics := statistics.getD ["Average"]
  let params : MetricQuery :=
    { Namespace := ns, MetricName := metric_name, Dimensions := dimensions,
      StartTime := start_time, EndTime := end_time, Period := period,
      Statistics := statistics,
      Unit := match unit with
        | some u => if u = "" then none else some u
        | none => none }
  match env params with
  | Except.ok response => Except.ok (sortDatapoints response)
  | Except.error e => Except.error e

/-- One row of the metrics DataFrame (the dict appended to
`all_metrics_data` in `collect_resource_metrics`). -/
structure MetricRow where
  resource_type : String
  resource_id : String
  metric_name : String
  timestamp : ℤ
  value : ℚ
  unit : String
  statistic : String
deriving DecidableEq, Repr

/-- `CloudWatchCollector.collect_resource_metrics`
(src/collectors/cloudwatch_metrics.py:118-175).  An unsupported resource type
raises `ValueError` before any fetch; a failed fetch of one metric is caught
by the inner `try/except` and skipped (`continue`), so fetch failures never
escape this function.  `now` stands for `datetime.utcnow()` in epoch
seconds. -/
def collect_resource_metrics (env : CWEnv) (resource_type resource_id : String)
    (now : ℤ) (days_back : ℕ) : Except String (List MetricRow) :=
  match METRICS_CONFIG.lookup resource_type with
  | none => Except.error ("Unsupported resource type: " ++ resource_type)
  | some config =>
    let end_time := now
    let start_time := now - days_back * 86400
    let dimensions := [(config.DimensionName, resource_id)]
    Except.ok (config.Metrics.foldl (fun all_metrics_data metric_config =>
      match get_metric_statistics env config.Namespace metric_config.Name
          dimensions start_time end_time 3600 (some [metric_config.Stat])
          (some metric_config.Unit) with
      | Except.error _ => all_metrics_data
      | Except.ok datapoints =>
        all_metrics_data ++ datapoints.map (fun dp =>
          { resource_type := resource_type, resource_id := resource_id,
            metric_name := metric_config.Name, timestamp := dp.Timestamp,
            value := (dp.Stats.lookup metric_config.Stat).getD 0,
            unit := dp.Unit.getD metric_config.Unit,
            statistic := metric_config.Stat })) [])

/-- One entry of the `resources` argument of `collect_batch_metrics`:
a dict with `'type'` and `'id'` keys. -/
structure ResourceRef where
  type : String
  id : String
deriving DecidableEq, Repr

/-- `CloudWatchCollector.collect_batch_metrics`
(src/collectors/cloudwatch_metrics.py:177-209).  Any exception from a single
resource is caught and the resource skipped; the collected frames are
concatenated, and an empty batch yields the explicit empty DataFrame
(`pd.DataFrame()`), i.e. `[]`. -/
def collect_batch_metrics (env : CWEnv) (resources : List ResourceRef)
    (now : ℤ) (days_back : ℕ) : List MetricRow :=
  resources.foldl (fun all_data resource =>
    match collect_resource_metrics env resource.type resource.id now days_back with
    | Except.error _ => all_data
    | Except.ok df => all_data ++ df) []

/-- The rows a single resource contributes to a batch: its frame on success,
nothing when `collect_resource_metrics` raised (spec-side accessor). -/
def rowsOf : Except String (List MetricRow) → List MetricRow
  | Except.ok rows => rows
  | Except.error _ => []

/-! #### `calculate_statistics` -/

/-- Ascending stable sort of the values (what pandas/numpy order-statistics
sort internally). -/
def sortVals (l : List ℚ) : List ℚ :=
  List.insertionSort (fun a b : ℚ => a ≤ b) l

/-- `values.mean()`. -/
def pyMean (l : List ℚ) : ℚ := l.sum / l.length

/-- `pd.Series(values).median()`: middle of the sorted values, or the average
of the two middle ones. -/
def pyMedian (l : List ℚ) : ℚ :=
  let s := sortVals l
  let n := s.length
  if n % 2 = 1 then s.getD (n / 2) 0
  else (s.getD (n / 2 - 1) 0 + s.getD (n / 2) 0) / 2

/-- `pd.Series(values).quantile(q)` with the default linear interpolation:
position `q * (n - 1)` between the sorted values.  When the position falls on
the last index the fractional part is `0`, so the out-of-range default is
never weighted. -/
def pyQuantile (l : List ℚ) (q : ℚ) : ℚ :=
  let s := sortVals l
  let pos : ℚ := q * ((s.length : ℚ) - 1)
  let i : ℕ := pos.floor.toNat
  let frac : ℚ := pos - (i : ℚ)
  s.getD i 0 + frac * (s.getD (i + 1) 0 - s.getD i 0)

/-- `values.max()` (numpy; the input is never empty where the code calls it). -/
def pyMax (l : List ℚ) : ℚ :=
  match l with
  | [] => 0
  | v :: vs => vs.foldl max v

/-- `values.min()`. -/
def pyMin (l : List ℚ) : ℚ :=
  match l with
  | [] => 0
  | v :: vs => vs.foldl min v

/-- `values.std() ** 2`: the population variance (numpy `std` uses
`ddof = 0`).  We model the square of the stored standard deviation because
the square root of a rational is irrational in general; the code's `std`
field is exactly the square root of this value. -/
def pyPopVariance (l : List ℚ) : ℚ :=
  let m := pyMean l
  ((l.map fun v => (v - m) ^ 2).sum) / l.length

/-- The per-(resource, metric) statistics dict built by
`calculate_statistics`; `std_sq` is the square of the code's `std` (see
`pyPopVariance`). -/
structure SummaryStats where
  mean : ℚ
  median : ℚ
  p95 : ℚ
  p99 : ℚ
  max : ℚ
  min : ℚ
  std_sq : ℚ
deriving DecidableEq, Repr

/-- The statistics computed over one list of metric values
(src/collectors/cloudwatch_metrics.py:272-280). -/
def mkStats (values : List ℚ) : SummaryStats :=
  { mean := pyMean values,
    median := pyMedian values,
    p95 := pyQuantile values (95 / 100),
    p99 := pyQuantile values (99 / 100),
    max := pyMax values,
    min := pyMin values,
    std_sq := pyPopVariance values }

/-- `CloudWatchCollector.calculate_statistics`
(src/collectors/cloudwatch_metrics.py:250-284): for each distinct
`resource_id` (pandas `unique`: first-appearance order), for each distinct
`metric_name` within that resource's rows, the statistics of that pair's
values; an empty frame returns the empty dict. -/
def calculate_statistics (df : List MetricRow) :
    List (String × List (String × SummaryStats)) :=
  if df.isEmpty then []
  else
    (uniqueKeep (df.map (·.resource_id))).map fun rid =>
      let resource_df := df.filter fun row => row.resource_id = rid
      (rid, (uniqueKeep (resource_df.map (·.metric_name))).map fun m =>
        let values := (resource_df.filter fun row => row.metric_name = m).map (·.value)
        (m, mkStats values))

/-! ### `src/collectors/resource_inventory.py` -/

/-- One resource record built by a scan (a dict of category-specific fields;
their exact shape is irrelevant to the claims about `collect_full_inventory`). -/
abbrev ResourceRecord := PyDict

/-- Outcomes of the three paginated listing APIs.  Each `scan_*` method wraps
its whole pagination-and-shaping loop in a `try/except` that logs and
re-raises, so the outcome of a scan is exactly the outcome of the underlying
API iteration: the shaped records, or the propagated exception. -/
structure InventoryEnv where
  ec2Result : Except String (List ResourceRecord)
  rdsResult : Except String (List ResourceRecord)
  lambdaResult : Except String (List ResourceRecord)

/-- `ResourceInventoryCollector.scan_ec2_instances`
(src/collectors/resource_inventory.py:33-73): log and re-raise. -/
def scan_ec2_instances (env : InventoryEnv) : Except String (List ResourceRecord) :=
  env.ec2Result

/-- `ResourceInventoryCollector.scan_rds_instances`
(src/collectors/resource_inventory.py:75-112). -/
def scan_rds_instances (env : InventoryEnv) : Except String (List ResourceRecord) :=
  env.rdsResult

/-- `ResourceInventoryCollector.scan_lambda_functions`
(src/collectors/resource_inventory.py:114-147). -/
def scan_lambda_functions (env : InventoryEnv) : Except String (List ResourceRecord) :=
  env.lambdaResult

/-- The inventory dict returned by `collect_full_inventory`. -/
structure Inventory where
  ec2_instances : List ResourceRecord
  rds_instances : List ResourceRecord
  lambda_functions : List ResourceRecord

/-- `ResourceInventoryCollector.collect_full_inventory`
(src/collectors/resource_inventory.py:149-164): a dict literal whose three
values are the three scans, evaluated in order with no `try/except` around
them — the first scan that raises aborts the whole call. -/
def collect_full_inventory (env : InventoryEnv) : Except String Inventory := do
  let ec2 ← scan_ec2_instances env
  let rds ← scan_rds_instances env
  let lam ← scan_lambda_functions env
  pure { ec2_instances := ec2, rds_instances := rds, lambda_functions := lam }

/-! ### Concrete fixtures used by witnesses and counterexamples -/

/-- A group carrying all three metrics, UnblendedCost included. -/
def gFix : CEGroup :=
  { Keys := ["AmazonEC2", "i-0abc"],
    Metrics :=
      { AmortizedCost := { Amount := "1.5", Unit := "USD" },
        UsageQuantity := { Amount := "2.0", Unit := "Hrs" },
        UnblendedCost := { Amount := "7.5", Unit := "USD" } } }

/-- A one-period, one-group response whose group has an `UnblendedCost`
metric. -/
def rawFix : CEResponse :=
  { ResultsByTime := [{ TimePeriod := { Start := "2024-01-01", End := "2024-01-02" },
                        Groups := [gFix] }] }

/-- A one-key group with the given first key and unblended cost. -/
def svcGroup (s amt : String) : CEGroup :=
  { Keys := [s],
    Metrics :=
      { AmortizedCost := { Amount := "0", Unit := "USD" },
        UsageQuantity := { Amount := "0", Unit := "N/A" },
        UnblendedCost := { Amount := amt, Unit := "USD" } } }

/-- A response with a single group whose tag key is the empty string and
whose unblended cost is `5.0`. -/
def respEmptyTag : CEResponse :=
  { ResultsByTime := [{ TimePeriod := { Start := "2024-01-01", End := "2024-02-01" },
                        Groups := [svcGroup "" "5.0"] }] }

/-- A response with per-service totals A ↦ 10, B ↦ 30, C ↦ 20. -/
def respABC : CEResponse :=
  { ResultsByTime := [{ TimePeriod := { Start := "2024-01-01", End := "2024-02-01" },
                        Groups := [svcGroup "A" "10", svcGroup "B" "30",
                                   svcGroup "C" "20"] }] }

/-- A response with one group genuinely tagged `'untagged'` (cost 3) and one
group tagged `prod` (cost 4). -/
def respUntagged : CEResponse :=
  { ResultsByTime := [{ TimePeriod := { Start := "2024-01-01", End := "2024-02-01" },
                        Groups := [svcGroup "untagged" "3.0", svcGroup "prod" "4.0"] }] }

/-- A minimal inventory record. -/
def recFix : ResourceRecord := [("resource_type", PyVal.str "EC2")]

/-- An inventory environment whose RDS listing raises. -/
def envRdsFail : InventoryEnv :=
  { ec2Result := Except.ok [recFix],
    rdsResult := Except.error "AccessDenied",
    lambdaResult := Except.ok [] }

/-- Batch-collection fixtures: three EC2 resources and one unsupported one. -/
def rEC2a : ResourceRef := { type := "EC2", id := "i-1" }

def rEC2b : ResourceRef := { type := "EC2", id := "i-2" }

def rEC2c : ResourceRef := { type := "EC2", id := "i-3" }

def rS3 : ResourceRef := { type := "S3", id := "bucket" }

/-- A CloudWatch environment in which every fetch for resource `i-2` raises
and every other fetch returns one datapoint. -/
def envBatch : CWEnv := fun q =>
  if q.Dimensions.any (fun d => d.2 = "i-2") then Except.error "Throttling"
  else Except.ok [{ Timestamp := 7, Stats := [("Average", 4), ("Sum", 9), ("Maximum", 1)],
                    Unit := none }]

/-- A CloudWatch environment in which every fetch raises. -/
def envAllFail : CWEnv := fun _ => Except.error "Throttling"

/-- One metrics row with the given value for the pair
(`i-1`, `CPUUtilization`). -/
def rowC4 (v : ℚ) : MetricRow :=
  { resource_type := "EC2", resource_id := "i-1", metric_name := "CPUUtilization",
    timestamp := 0, value := v, unit := "Percent", statistic := "Average" }

/-- Five rows with values 10, 20, 30, 40, 50 for one (resource, metric) pair. -/
def rowsC4 : List MetricRow := [rowC4 10, rowC4 20, rowC4 30, rowC4 40, rowC4 50]

/-- Two datapoints out of timestamp order. -/
def dpLate : Datapoint := { Timestamp := 5, Stats := [("Average", 1)], Unit := some "Percent" }

def dpEarly : Datapoint := { Timestamp := 3, Stats := [("Average", 2)], Unit := none }

/-- A CloudWatch environment returning datapoints out of order. -/
def envUnsorted : CWEnv := fun _ => Except.ok [dpLate, dpEarly]

end AwsCostOpt

namespace AwsCostOpt

/-! ## Helper lemmas -/

theorem foldl_append_flatMap (l : List α) (g : α → List β) :
    ∀ acc : List β, l.foldl (fun s x => s ++ g x) acc = acc ++ l.flatMap g := by
  induction l with
  | nil => intro acc; simp
  | cons x xs ih => intro acc; simp [ih]

theorem flatMap_singleton_map (l : List α) (f : α → β) :
    (l.flatMap fun x => [f x]) = l.map f := by
  induction l with
  | nil => rfl
  | cons a t ih => simp [ih]

theorem getD_zero_eq_match (l : List String) :
    l.getD 0 "Unknown" = match l with | [] => "Unknown" | k :: _ => k := by
  cases l <;> rfl

theorem getD_one_eq_match (l : List String) :
    l.getD 1 "N/A" = match l with | _ :: k :: _ => k | _ => "N/A" := by
  match l with
  | [] => rfl
  | [_] => rfl
  | _ :: _ :: _ => rfl

/-- The loop of `process_cost_data` computes the flattening the specification
describes. -/
theorem process_cost_data_eq_spec (raw : CEResponse) (now : String) :
    process_cost_data raw now = specCostRecords raw now := by
  unfold process_cost_data specCostRecords
  have inner : ∀ (tp : CEResultByTime) (acc : List PyDict),
      tp.Groups.foldl (fun summaries g =>
        summaries ++
          [[("date", PyVal.str tp.TimePeriod.Start),
            ("service", PyVal.str (g.Keys.getD 0 "Unknown")),
            ("resource_id", PyVal.str (g.Keys.getD 1 "N/A")),
            ("amortized_cost", PyVal.num (pyFloat g.Metrics.AmortizedCost.Amount)),
            ("usage_quantity", PyVal.num (pyFloat g.Metrics.UsageQuantity.Amount)),
            ("timestamp", PyVal.str now)]]) acc
      = acc ++ tp.Groups.map (fun g =>
          [("date", PyVal.str tp.TimePeriod.Start),
           ("service", PyVal.str (match g.Keys with | [] => "Unknown" | k :: _ => k)),
           ("resource_id", PyVal.str (match g.Keys with | _ :: k :: _ => k | _ => "N/A")),
           ("amortized_cost", PyVal.num (pyFloat g.Metrics.AmortizedCost.Amount)),
           ("usage_quantity", PyVal.num (pyFloat g.Metrics.UsageQuantity.Amount)),
           ("timestamp", PyVal.str now)]) := by
    intro tp acc
    have := foldl_append_flatMap tp.Groups (fun g =>
      [[("date", PyVal.str tp.TimePeriod.Start),
        ("service", PyVal.str (g.Keys.getD 0 "Unknown")),
        ("resource_id", PyVal.str (g.Keys.getD 1 "N/A")),
        ("amortized_cost", PyVal.num (pyFloat g.Metrics.AmortizedCost.Amount)),
        ("usage_quantity", PyVal.num (pyFloat g.Metrics.UsageQuantity.Amount)),
        ("timestamp", PyVal.str now)]]) acc
    simp only [this]
    congr 1
    rw [flatMap_singleton_map]
    exact List.map_congr_left fun g _ => by
      rw [getD_zero_eq_match, getD_one_eq_match]
  calc raw.ResultsByTime.foldl _ []
      = raw.ResultsByTime.foldl (fun summaries tp =>
          summaries ++ tp.Groups.map (fun g =>
            [("date", PyVal.str tp.TimePeriod.Start),
             ("service", PyVal.str (match g.Keys with | [] => "Unknown" | k :: _ => k)),
             ("resource_id", PyVal.str (match g.Keys with | _ :: k :: _ => k | _ => "N/A")),
             ("amortized_cost", PyVal.num (pyFloat g.Metrics.AmortizedCost.Amount)),
             ("usage_quantity", PyVal.num (pyFloat g.Metrics.UsageQuantity.Amount)),
             ("timestamp", PyVal.str now)])) [] := by
        exact List.foldl_ext _ _ [] fun acc tp _ => inner tp acc
    _ = _ := by
        rw [foldl_append_flatMap]; rfl

/-! ### Dict-tally lemmas -/

theorem bump_keys (m : List (String × ℚ)) (k : String) (c : ℚ) :
    (bump m k c).map Prod.fst
      = if k ∈ m.map Prod.fst then m.map Prod.fst else m.map Prod.fst ++ [k] := by
  induction m with
  | nil => simp [bump]
  | cons p rest ih =>
    obtain ⟨k', v⟩ := p
    by_cases h : k' = k
    · subst h
      simp [bump]
    · by_cases hm : k ∈ rest.map Prod.fst
      · simp [bump, h, ih, hm, Ne.symm h]
      · simp [bump, h, ih, hm, Ne.symm h]

theorem bump_sum (m : List (String × ℚ)) (k : String) (c : ℚ) :
    ((bump m k c).map Prod.snd).sum = (m.map Prod.snd).sum + c := by
  induction m with
  | nil => simp [bump]
  | cons p rest ih =>
    obtain ⟨k', v⟩ := p
    by_cases h : k' = k
    · subst h
      simp [bump, add_right_comm]
    · simp [bump, h, ih, add_assoc]

theorem bump_lookup_self (m : List (String × ℚ)) (k : String) (c : ℚ) :
    (bump m k c).lookup k = some ((m.lookup k).getD 0 + c) := by
  induction m with
  | nil => simp [bump, List.lookup]
  | cons p rest ih =>
    obtain ⟨k', v⟩ := p
    by_cases h : k' = k
    · subst h
      simp [bump, List.lookup]
    · have hb : (k == k') = false := by simp [Ne.symm h]
      simp [bump, h, List.lookup, hb, ih]

theorem bump_lookup_ne (m : List (String × ℚ)) (k : String) (c : ℚ)
    (k' : String) (h : k' ≠ k) :
    (bump m k c).lookup k' = m.lookup k' := by
  have hb : (k' == k) = false := by simp [h]
  induction m with
  | nil => simp [bump, List.lookup, hb]
  | cons p rest ih =>
    obtain ⟨k'', v⟩ := p
    by_cases h2 : k'' = k
    · subst h2
      simp [bump, List.lookup, hb]
    · by_cases h3 : k' = k''
      · subst h3
        simp [bump, h2, List.lookup]
      · have hb3 : (k' == k'') = false := by simp [h3]
        simp [bump, h2, List.lookup, hb3, ih]

theorem tallyPairs_cons (init : List (String × ℚ)) (p : String × ℚ)
    (l : List (String × ℚ)) :
    tallyPairs init (p :: l) = tallyPairs (bump init p.1 p.2) l := rfl

theorem tallyPairs_sum (l : List (String × ℚ)) :
    ∀ init : List (String × ℚ),
      ((tallyPairs init l).map Prod.snd).sum
        = (init.map Prod.snd).sum + (l.map Prod.snd).sum := by
  induction l with
  | nil => intro init; simp [tallyPairs]
  | cons p rest ih =>
    intro init
    rw [tallyPairs_cons, ih, bump_sum]
    simp [add_assoc]

theorem tallyPairs_keys (l : List (String × ℚ)) :
    ∀ init : List (String × ℚ),
      (tallyPairs init l).map Prod.fst
        = init.map Prod.fst ++ newKeys (init.map Prod.fst) (l.map Prod.fst) := by
  induction l with
  | nil => intro init; simp [tallyPairs, newKeys]
  | cons p rest ih =>
    intro init
    rw [tallyPairs_cons, ih, bump_keys]
    by_cases hm : p.1 ∈ init.map Prod.fst
    · simp [hm, newKeys]
    · simp [hm, newKeys, List.append_assoc]

theorem tallyPairs_lookup (l : List (String × ℚ)) :
    ∀ (init : List (String × ℚ)) (k : String),
      (tallyPairs init l).lookup k
        = match init.lookup k with
          | some v => some (v + keyedSum k l)
          | none => if k ∈ l.map Prod.fst then some (keyedSum k l) else none := by
  induction l with
  | nil =>
    intro init k
    cases h : init.lookup k <;> simp [tallyPairs, keyedSum, h]
  | cons p rest ih =>
    intro init k
    obtain ⟨k1, c1⟩ := p
    rw [tallyPairs_cons, ih]
    by_cases hk : k = k1
    · subst hk
      rw [bump_lookup_self]
      cases h : init.lookup k with
      | none => simp [h, keyedSum, List.filter_cons, add_assoc]
      | some v => simp [h, keyedSum, List.filter_cons, add_assoc]
    · rw [bump_lookup_ne _ _ _ _ hk]
      cases h : init.lookup k with
      | none =>
        by_cases hm : k ∈ List.map Prod.fst rest
        · simp [h, keyedSum, List.filter_cons, Ne.symm hk, hk, hm]
        · simp [h, keyedSum, List.filter_cons, Ne.symm hk, hk, hm]
      | some v => simp [h, keyedSum, List.filter_cons, Ne.symm hk]

theorem mem_newKeys (l : List String) :
    ∀ (seen : List String) (x : String),
      x ∈ newKeys seen l ↔ x ∈ l ∧ x ∉ seen := by
  induction l with
  | nil => intro seen x; simp [newKeys]
  | cons a rest ih =>
    intro seen x
    by_cases h : a ∈ seen
    · rw [newKeys, if_pos h, ih]
      constructor
      · rintro ⟨hl, hs⟩
        exact ⟨List.mem_cons_of_mem _ hl, hs⟩
      · rintro ⟨hal, hs⟩
        rcases List.mem_cons.mp hal with rfl | hl
        · exact absurd h hs
        · exact ⟨hl, hs⟩
    · rw [newKeys, if_neg h]
      constructor
      · intro hx
        rcases List.mem_cons.mp hx with rfl | hx
        · exact ⟨List.mem_cons_self _ _, h⟩
        · obtain ⟨hl, hs⟩ := (ih _ _).mp hx
          refine ⟨List.mem_cons_of_mem _ hl, fun hxs => hs ?_⟩
          simp [hxs]
      · rintro ⟨hal, hs⟩
        rcases List.mem_cons.mp hal with rfl | hl
        · exact List.mem_cons_self _ _
        · by_cases hxa : x = a
          · subst hxa; exact List.mem_cons_self _ _
          · refine List.mem_cons_of_mem _ ((ih _ _).mpr ⟨hl, ?_⟩)
            simp [hs, hxa]

theorem newKeys_nodup (l : List String) :
    ∀ seen : List String, (newKeys seen l).Nodup := by
  induction l with
  | nil => intro seen; simp [newKeys]
  | cons a rest ih =>
    intro seen
    by_cases h : a ∈ seen
    · rw [newKeys, if_pos h]; exact ih _
    · rw [newKeys, if_neg h]
      refine List.nodup_cons.mpr ⟨fun hmem => ?_, ih _⟩
      have := ((mem_newKeys rest _ a).mp hmem).2
      simp at this

theorem mem_uniqueKeep (l : List String) (x : String) :
    x ∈ uniqueKeep l ↔ x ∈ l := by
  rw [uniqueKeep, mem_newKeys]
  simp

theorem lookup_map_keyed {β : Type} (keys : List String) (f : String → β) (k : String)
    (h : k ∈ keys) :
    (keys.map fun k' => (k', f k')).lookup k = some (f k) := by
  induction keys with
  | nil => cases h
  | cons a rest ih =>
    by_cases hk : k = a
    · subst hk
      simp [List.lookup]
    · rcases List.mem_cons.mp h with rfl | hm
      · exact absurd rfl hk
      · have hb : (k == a) = false := by simp [hk]
        simp [List.lookup, hb, ih hm]

theorem lookup_eq_of_mem_nodup (m : List (String × ℚ)) (k : String) (v : ℚ)
    (hn : (m.map Prod.fst).Nodup) (hm : (k, v) ∈ m) :
    m.lookup k = some v := by
  induction m with
  | nil => cases hm
  | cons p rest ih =>
    obtain ⟨k', v'⟩ := p
    rcases List.mem_cons.mp hm with heq | hm'
    · obtain ⟨rfl, rfl⟩ := Prod.mk.injEq .. ▸ heq
      · simp [List.lookup]
    · have hk : k ≠ k' := by
        rintro rfl
        exact (List.nodup_cons.mp hn).1 (List.mem_map.mpr ⟨(k, v), hm', rfl⟩)
      have hb : (k == k') = false := by simp [hk]
      simp only [List.lookup, hb]
      exact ih (List.nodup_cons.mp hn).2 hm'

theorem foldl_foldl_flatMap (l : List α) (f : α → List β) (step : γ → β → γ) :
    ∀ init : γ,
      l.foldl (fun acc x => (f x).foldl step acc) init = (l.flatMap f).foldl step init := by
  induction l with
  | nil => intro init; rfl
  | cons x xs ih => intro init; simp [List.foldl_append, ih]

/-! ## Claims -/

/-- C1: `process_cost_data` yields one record per (time period, group) pair —
two periods of two groups give exactly 4 records — with the period start as
`date`, the first key (or `"Unknown"`) as `service`, the second key (or
`"N/A"`) as `resource_id`, and the float conversions of the metric amount
strings as the cost and quantity fields. -/
theorem C1_process_cost_data_flattening (raw : CEResponse) (now : String) :
    process_cost_data raw now = specCostRecords raw now
    ∧ (process_cost_data raw now).length
        = (raw.ResultsByTime.map fun tp => tp.Groups.length).sum
    ∧ ∀ (p1 p2 : CETimePeriod) (g1 g2 g3 g4 : CEGroup),
        (process_cost_data
          { ResultsByTime := [{ TimePeriod := p1, Groups := [g1, g2] },
                              { TimePeriod := p2, Groups := [g3, g4] }] } now).length = 4 := by
  refine ⟨process_cost_data_eq_spec raw now, ?_, ?_⟩
  · rw [process_cost_data_eq_spec]
    simp only [specCostRecords, List.length_flatMap, Function.comp_def, List.length_map]
  · intro p1 p2 g1 g2 g3 g4
    rw [process_cost_data_eq_spec]
    simp [specCostRecords]

/-- C2 (amended): every record `process_cost_data` produces carries exactly
the six fields `date`, `service`, `resource_id`, `amortized_cost`,
`usage_quantity`, `timestamp`; in particular it has no `unblended_cost`
field, although `fetch_cost_data` requests the `UnblendedCost` metric. -/
theorem C2_record_has_six_fields (raw : CEResponse) (now : String)
    (r : PyDict) (h : r ∈ process_cost_data raw now) :
    r.map Prod.fst
      = ["date", "service", "resource_id", "amortized_cost", "usage_quantity", "timestamp"]
    ∧ List.lookup "unblended_cost" r = none
    ∧ "UnblendedCost" ∈ fetch_cost_data_metrics := by
  rw [process_cost_data_eq_spec] at h
  unfold specCostRecords at h
  rw [List.mem_flatMap] at h
  obtain ⟨tp, -, h⟩ := h
  rw [List.mem_map] at h
  obtain ⟨g, -, rfl⟩ := h
  refine ⟨rfl, rfl, by simp [fetch_cost_data_metrics]⟩

/-- Witness for C2's amended theorem at the concrete fixture. -/
theorem C2_record_has_six_fields_witness :
    ∃ r ∈ process_cost_data rawFix "2024-01-05T00:00:00",
      r.map Prod.fst
        = ["date", "service", "resource_id", "amortized_cost", "usage_quantity", "timestamp"]
      ∧ List.lookup "unblended_cost" r = none := by
  have hmem : [("date", PyVal.str "2024-01-01"),
      ("service", PyVal.str "AmazonEC2"),
      ("resource_id", PyVal.str "i-0abc"),
      ("amortized_cost", PyVal.num (pyFloat "1.5")),
      ("usage_quantity", PyVal.num (pyFloat "2.0")),
      ("timestamp", PyVal.str "2024-01-05T00:00:00")]
      ∈ process_cost_data rawFix "2024-01-05T00:00:00" := by
    simp [process_cost_data, rawFix, gFix]
  exact ⟨_, hmem,
    (C2_record_has_six_fields rawFix "2024-01-05T00:00:00" _ hmem).1,
    (C2_record_has_six_fields rawFix "2024-01-05T00:00:00" _ hmem).2.1⟩

/-- C2 (counterexample): the claim as stated is false — the record produced
for `rawFix`, whose group does carry an `UnblendedCost` metric of `7.5`,
has no `unblended_cost` field. -/
theorem C2_counterexample :
    ¬ ∀ r ∈ process_cost_data rawFix "2024-01-05T00:00:00",
        (List.lookup "unblended_cost" r).isSome = true := by
  intro hall
  have hmem : [("date", PyVal.str "2024-01-01"),
      ("service", PyVal.str "AmazonEC2"),
      ("resource_id", PyVal.str "i-0abc"),
      ("amortized_cost", PyVal.num (pyFloat "1.5")),
      ("usage_quantity", PyVal.num (pyFloat "2.0")),
      ("timestamp", PyVal.str "2024-01-05T00:00:00")]
      ∈ process_cost_data rawFix "2024-01-05T00:00:00" := by
    simp [process_cost_data, rawFix, gFix]
  simpa using hall _ hmem

/-- C5: whatever order the CloudWatch API returned, a successful
`get_metric_statistics` hands back datapoints sorted ascending by timestamp:
adjacent (indeed all) pairs are in non-decreasing timestamp order. -/
theorem C5_get_metric_statistics_sorted (env : CWEnv) (ns metric_name : String)
    (dimensions : List (String × String)) (start_time end_time : ℤ)
    (period : ℕ) (statistics : Option (List String)) (unit : Option String)
    (dps : List Datapoint)
    (h : get_metric_statistics env ns metric_name dimensions start_time end_time
          period statistics unit = Except.ok dps) :
    dps.Pairwise fun a b => a.Timestamp ≤ b.Timestamp := by
  simp only [get_metric_statistics] at h
  split at h
  case h_2 => exact absurd h (by simp)
  case h_1 response hresp =>
    have hdps : dps = sortDatapoints response := by
      injection h with h; exact h.symm
    subst hdps
    haveI : IsTotal Datapoint (fun a b => a.Timestamp ≤ b.Timestamp) :=
      ⟨fun a b => le_total a.Timestamp b.Timestamp⟩
    haveI : IsTrans Datapoint (fun a b => a.Timestamp ≤ b.Timestamp) :=
      ⟨fun _ _ _ hab hbc => le_trans hab hbc⟩
    exact List.sorted_insertionSort _ response

/-- Witness for C5: an environment returning timestamps `[5, 3]` yields the
sorted list `[3, 5]`, which is pairwise non-decreasing. -/
theorem C5_get_metric_statistics_sorted_witness :
    get_metric_statistics envUnsorted "AWS/EC2" "CPUUtilization" [] 0 100 3600 none none
      = Except.ok [dpEarly, dpLate]
    ∧ List.Pairwise (fun a b : Datapoint => a.Timestamp ≤ b.Timestamp) [dpEarly, dpLate] := by
  have hok : get_metric_statistics envUnsorted "AWS/EC2" "CPUUtilization" [] 0 100 3600 none none
      = Except.ok [dpEarly, dpLate] := by
    simp [get_metric_statistics, envUnsorted, sortDatapoints, List.insertionSort,
      List.orderedInsert, dpEarly, dpLate]
  exact ⟨hok, C5_get_metric_statistics_sorted envUnsorted "AWS/EC2" "CPUUtilization"
    [] 0 100 3600 none none [dpEarly, dpLate] hok⟩

/-- C8: `collect_full_inventory` wraps no scan in a handler: the first
category scan that raises aborts the whole call with that very error, and a
successful call implies all three scans succeeded (no partial result). -/
theorem C8_collect_full_inventory_fail_fast (env : InventoryEnv) (e : String) :
    (scan_ec2_instances env = Except.error e →
       collect_full_inventory env = Except.error e)
    ∧ (∀ l, scan_ec2_instances env = Except.ok l →
        scan_rds_instances env = Except.error e →
        collect_full_inventory env = Except.error e)
    ∧ (∀ l₁ l₂, scan_ec2_instances env = Except.ok l₁ →
        scan_rds_instances env = Except.ok l₂ →
        scan_lambda_functions env = Except.error e →
        collect_full_inventory env = Except.error e)
    ∧ (∀ inv, collect_full_inventory env = Except.ok inv →
        scan_ec2_instances env = Except.ok inv.ec2_instances
        ∧ scan_rds_instances env = Except.ok inv.rds_instances
        ∧ scan_lambda_functions env = Except.ok inv.lambda_functions) := by
  refine ⟨?_, ?_, ?_, ?_⟩
  · intro h1
    simp [collect_full_inventory, h1, Bind.bind, Except.bind]
  · intro l h1 h2
    simp [collect_full_inventory, h1, h2, Bind.bind, Except.bind]
  · intro l₁ l₂ h1 h2 h3
    simp [collect_full_inventory, h1, h2, h3, Bind.bind, Except.bind]
  · intro inv h
    simp only [collect_full_inventory, Bind.bind, Except.bind] at h
    cases h1 : scan_ec2_instances env with
    | error e1 => rw [h1] at h; exact absurd h (by simp)
    | ok l₁ =>
      rw [h1] at h
      cases h2 : scan_rds_instances env with
      | error e2 => rw [h2] at h; exact absurd h (by simp)
      | ok l₂ =>
        rw [h2] at h
        cases h3 : scan_lambda_functions env with
        | error e3 => rw [h3] at h; exact absurd h (by simp)
        | ok l₃ =>
          rw [h3] at h
          simp only [pure, Except.pure, Except.ok.injEq] at h
          subst h
          exact ⟨by simpa using h1, by simpa using h2, by simpa using h3⟩

/-- Witness for C8: with the RDS listing raising `AccessDenied`, the whole
inventory collection returns that error. -/
theorem C8_collect_full_inventory_fail_fast_witness :
    collect_full_inventory envRdsFail = Except.error "AccessDenied" :=
  (C8_collect_full_inventory_fail_fast envRdsFail "AccessDenied").2.1 [recFix] rfl rfl

/-- The batch loop concatenates, in order, exactly the rows of the resources
whose collection did not raise. -/
theorem collect_batch_metrics_eq_flatMap (env : CWEnv) (resources : List ResourceRef)
    (now : ℤ) (days_back : ℕ) :
    collect_batch_metrics env resources now days_back
      = resources.flatMap fun r =>
          rowsOf (collect_resource_metrics env r.type r.id now days_back) := by
  unfold collect_batch_metrics
  have hstep : ∀ (all_data : List MetricRow) (r : ResourceRef),
      (match collect_resource_metrics env r.type r.id now days_back with
       | Except.error _ => all_data
       | Except.ok df => all_data ++ df)
      = all_data ++ rowsOf (collect_resource_metrics env r.type r.id now days_back) := by
    intro all_data r
    cases h : collect_resource_metrics env r.type r.id now days_back <;> simp [rowsOf]
  calc resources.foldl _ []
      = resources.foldl (fun all_data r =>
          all_data ++ rowsOf (collect_resource_metrics env r.type r.id now days_back)) [] :=
        List.foldl_ext _ _ [] fun all_data r _ => hstep all_data r
    _ = _ := by rw [foldl_append_flatMap]; rfl

/-- C3: a failure while collecting one resource is caught and the resource
skipped — the batch result is exactly the concatenation of the rows of the
resources that yielded rows, the call never raises (it is a total function
into lists), and a batch in which no resource contributes returns the
explicit empty table. -/
theorem C3_collect_batch_metrics_partial_failure (env : CWEnv)
    (resources : List ResourceRef) (now : ℤ) (days_back : ℕ) :
    collect_batch_metrics env resources now days_back
      = (resources.flatMap fun r =>
          rowsOf (collect_resource_metrics env r.type r.id now days_back))
    ∧ ((∀ r ∈ resources,
          rowsOf (collect_resource_metrics env r.type r.id now days_back) = []) →
        collect_batch_metrics env resources now days_back = []) := by
  refine ⟨collect_batch_metrics_eq_flatMap env resources now days_back, fun hall => ?_⟩
  rw [collect_batch_metrics_eq_flatMap]
  exact List.flatMap_eq_nil_iff.mpr hall

/-- Witness for C3: with resource `i-2`'s fetches raising, the batch holds
exactly the rows of `i-1` and `i-3`; with every fetch raising, the batch is
the explicit empty table. -/
theorem C3_collect_batch_metrics_partial_failure_witness :
    collect_batch_metrics envBatch [rEC2a, rEC2b, rEC2c] 2000000 15
      = rowsOf (collect_resource_metrics envBatch "EC2" "i-1" 2000000 15)
        ++ rowsOf (collect_resource_metrics envBatch "EC2" "i-3" 2000000 15)
    ∧ collect_batch_metrics envAllFail [rEC2a, rEC2b, rEC2c] 2000000 15 = [] := by
  constructor
  · have h2 : rowsOf (collect_resource_metrics envBatch "EC2" "i-2" 2000000 15) = [] := rfl
    rw [(C3_collect_batch_metrics_partial_failure envBatch [rEC2a, rEC2b, rEC2c] 2000000 15).1]
    simp only [List.flatMap_cons, List.flatMap_nil, List.append_nil]
    rw [show rEC2b.type = "EC2" from rfl, show rEC2b.id = "i-2" from rfl, h2]
    rfl
  · refine (C3_collect_batch_metrics_partial_failure envAllFail
      [rEC2a, rEC2b, rEC2c] 2000000 15).2 ?_
    intro r hr
    simp only [List.mem_cons, List.not_mem_nil, or_false] at hr
    rcases hr with rfl | rfl | rfl <;> rfl

/-- C9: a resource whose `type` is unsupported makes `collect_resource_metrics`
raise the validation error, but through the batch interface that error is
caught by the blanket handler and the resource is silently skipped: the batch
result is the same as without that resource, so the fail-fast policy does not
hold through `collect_batch_metrics`. -/
theorem C9_collect_batch_metrics_swallows_validation_error (env : CWEnv)
    (pre post : List ResourceRef) (r : ResourceRef) (now : ℤ) (days_back : ℕ)
    (h : METRICS_CONFIG.lookup r.type = none) :
    collect_resource_metrics env r.type r.id now days_back
      = Except.error ("Unsupported resource type: " ++ r.type)
    ∧ collect_batch_metrics env (pre ++ r :: post) now days_back
      = collect_batch_metrics env (pre ++ post) now days_back := by
  have herr : collect_resource_metrics env r.type r.id now days_back
      = Except.error ("Unsupported resource type: " ++ r.type) := by
    unfold collect_resource_metrics
    rw [h]
  refine ⟨herr, ?_⟩
  rw [collect_batch_metrics_eq_flatMap, collect_batch_metrics_eq_flatMap]
  simp [List.flatMap_append, herr, rowsOf]

/-- Witness for C9: an `S3` resource between two EC2 resources is skipped,
leaving the batch identical to the one without it. -/
theorem C9_collect_batch_metrics_swallows_validation_error_witness :
    METRICS_CONFIG.lookup "S3" = none
    ∧ collect_resource_metrics envBatch "S3" "bucket" 2000000 15
        = Except.error ("Unsupported resource type: " ++ "S3")
    ∧ collect_batch_metrics envBatch [rEC2a, rS3, rEC2c] 2000000 15
        = collect_batch_metrics envBatch [rEC2a, rEC2c] 2000000 15 :=
  ⟨rfl,
   (C9_collect_batch_metrics_swallows_validation_error envBatch [rEC2a] [rEC2c]
      rS3 2000000 15 rfl).1,
   (C9_collect_batch_metrics_swallows_validation_error envBatch [rEC2a] [rEC2c]
      rS3 2000000 15 rfl).2⟩

/-- The nested loops of `_parse_tagged_costs` are one fold of its body over
all groups of the response. -/
theorem parse_tagged_costs_eq_fold (resp : CEResponse) (k : String) :
    parse_tagged_costs resp k
      = (allGroups resp).foldl tagStep
          { tag_key := k, by_tag_value := [], untagged_cost := 0 } := by
  unfold parse_tagged_costs allGroups
  exact foldl_foldl_flatMap _ _ _ _

/-- What a fold of the `_parse_tagged_costs` body computes: the tag key is
untouched, the untagged groups' costs are summed into `untagged_cost`, and
the remaining groups are tallied into `by_tag_value`. -/
theorem tagStep_fold_char (gs : List CEGroup) :
    ∀ acc : TaggedCosts,
      (gs.foldl tagStep acc).tag_key = acc.tag_key
      ∧ (gs.foldl tagStep acc).untagged_cost
          = acc.untagged_cost + ((gs.filter fun g => isUntaggedVal g).map groupCost).sum
      ∧ (gs.foldl tagStep acc).by_tag_value
          = tallyPairs acc.by_tag_value
              (((gs.filter fun g => ! isUntaggedVal g)).map fun g =>
                (tagValueOf g, groupCost g)) := by
  induction gs with
  | nil => intro acc; simp [tallyPairs]
  | cons g rest ih =>
    intro acc
    rw [List.foldl_cons]
    obtain ⟨h1, h2, h3⟩ := ih (tagStep acc g)
    by_cases h : tagValueOf g = "untagged" ∨ tagValueOf g = ""
    · have hb : isUntaggedVal g = true := by simp [isUntaggedVal, h]
      refine ⟨?_, ?_, ?_⟩
      · rw [h1]; simp [tagStep, h]
      · rw [h2]; simp [tagStep, h, List.filter_cons, hb, add_assoc]
      · rw [h3]; simp [tagStep, h, List.filter_cons, hb]
    · have hb : isUntaggedVal g = false := by
        simp only [isUntaggedVal, decide_eq_false_iff_not]
        simpa using h
      refine ⟨?_, ?_, ?_⟩
      · rw [h1]; simp [tagStep, h]
      · rw [h2]; simp [tagStep, h, List.filter_cons, hb]
      · rw [h3]
        simp only [tagStep, h, ite_false, List.filter_cons, hb, Bool.not_false,
          ite_true, List.map_cons, tallyPairs_cons]

/-- A group with an empty key list or an empty-string first key is treated
as untagged by the `_parse_tagged_costs` loop body. -/
theorem isUntaggedVal_of_empty_or_missing (g : CEGroup)
    (h : g.Keys = [] ∨ g.Keys.head? = some "") : isUntaggedVal g = true := by
  rcases h with hnil | hhead
  · simp [isUntaggedVal, tagValueOf, hnil]
  · cases hK : g.Keys with
    | nil => rw [hK] at hhead; simp at hhead
    | cons a t =>
      rw [hK] at hhead
      simp only [List.head?_cons, Option.some.injEq] at hhead
      subst hhead
      simp [isUntaggedVal, tagValueOf, hK]

/-- C6: `_parse_tagged_costs` folds the cost of every group with an empty or
missing tag-group key into `untagged_cost` and creates no mapping entry for
it: no `by_tag_value` key is the empty string, no cost is lost
(`untagged_cost` plus the mapping total equals the total of all groups), and
a response whose groups all have empty or missing keys yields an empty
`by_tag_value` and the whole total as `untagged_cost`. -/
theorem C6_parse_tagged_costs_folds_empty (resp : CEResponse) (k : String) :
    (parse_tagged_costs resp k).untagged_cost
        + ((parse_tagged_costs resp k).by_tag_value.map Prod.snd).sum
      = ((allGroups resp).map groupCost).sum
    ∧ (∀ v ∈ (parse_tagged_costs resp k).by_tag_value.map Prod.fst, v ≠ "")
    ∧ ((∀ g ∈ allGroups resp, g.Keys = [] ∨ g.Keys.head? = some "") →
        (parse_tagged_costs resp k).by_tag_value = []
        ∧ (parse_tagged_costs resp k).untagged_cost
            = ((allGroups resp).map groupCost).sum) := by
  rw [parse_tagged_costs_eq_fold]
  obtain ⟨-, h2, h3⟩ := tagStep_fold_char (allGroups resp)
    { tag_key := k, by_tag_value := [], untagged_cost := 0 }
  refine ⟨?_, ?_, ?_⟩
  · rw [h2, h3]
    simp only [zero_add]
    rw [tallyPairs_sum _ []]
    simp only [List.map_nil, List.sum_nil, zero_add, List.map_map]
    have hcomp : (Prod.snd ∘ fun g : CEGroup => (tagValueOf g, groupCost g)) = groupCost :=
      funext fun g => rfl
    rw [hcomp]
    have hperm : (((allGroups resp).filter (fun g => isUntaggedVal g)
        ++ (allGroups resp).filter (fun g => ! isUntaggedVal g)).map groupCost).Perm
          ((allGroups resp).map groupCost) :=
      (List.filter_append_perm _ _).map groupCost
    rw [← hperm.sum_eq, List.map_append, List.sum_append]
  · intro v hv
    rw [h3] at hv
    rw [tallyPairs_keys _ []] at hv
    simp only [List.map_nil, List.nil_append] at hv
    have hv2 := ((mem_newKeys _ _ _).mp hv).1
    rw [List.map_map, List.mem_map] at hv2
    obtain ⟨g, hg, hgv⟩ := hv2
    have := List.of_mem_filter hg
    simp only [isUntaggedVal, Bool.not_eq_true', decide_eq_false_iff_not] at this
    rw [← hgv]
    simp only [Function.comp_def]
    intro hempty
    exact this (Or.inr hempty)
  · intro hall
    have hfil : (allGroups resp).filter (fun g => ! isUntaggedVal g) = [] := by
      rw [List.filter_eq_nil_iff]
      intro g hg
      simp [isUntaggedVal_of_empty_or_missing g (hall g hg)]
    have hfil2 : (allGroups resp).filter (fun g => isUntaggedVal g) = allGroups resp := by
      rw [List.filter_eq_self]
      intro g hg
      simp [isUntaggedVal_of_empty_or_missing g (hall g hg)]
    constructor
    · rw [h3, hfil]
      simp [tallyPairs]
    · rw [h2, hfil2, zero_add]

/-- Witness for C6: one group with the empty-string tag key and cost `5.0`
gives `untagged_cost = 5` and an empty `by_tag_value`. -/
theorem C6_parse_tagged_costs_folds_empty_witness :
    (parse_tagged_costs respEmptyTag "Environment").by_tag_value = []
    ∧ (parse_tagged_costs respEmptyTag "Environment").untagged_cost = 5 := by
  have hall : ∀ g ∈ allGroups respEmptyTag, g.Keys = [] ∨ g.Keys.head? = some "" := by
    intro g hg
    simp only [allGroups, respEmptyTag, List.flatMap_cons, List.flatMap_nil,
      List.append_nil, List.mem_cons, List.not_mem_nil, or_false] at hg
    subst hg
    right
    rfl
  obtain ⟨hb, hu⟩ := (C6_parse_tagged_costs_folds_empty respEmptyTag "Environment").2.2 hall
  refine ⟨hb, hu.trans ?_⟩
  simp [allGroups, respEmptyTag, svcGroup, groupCost, pyFloat, decimalVal,
    digitsVal, digitVal]

/-- C10: `_parse_tagged_costs` also folds groups whose tag value is the
literal string `'untagged'` into `untagged_cost`: the mapping never contains
the key `'untagged'`, and replacing every such group's key list by the empty
(missing) one changes nothing — cost genuinely tagged `'untagged'` is
indistinguishable from untagged cost. -/
theorem C10_parse_tagged_costs_untagged_literal (resp : CEResponse) (k : String) :
    "untagged" ∉ (parse_tagged_costs resp k).by_tag_value.map Prod.fst
    ∧ parse_tagged_costs (eraseUntaggedKeys resp) k = parse_tagged_costs resp k := by
  constructor
  · intro hv
    rw [parse_tagged_costs_eq_fold] at hv
    obtain ⟨-, -, h3⟩ := tagStep_fold_char (allGroups resp)
      { tag_key := k, by_tag_value := [], untagged_cost := 0 }
    rw [h3, tallyPairs_keys _ []] at hv
    simp only [List.map_nil, List.nil_append] at hv
    have hv2 := ((mem_newKeys _ _ _).mp hv).1
    rw [List.map_map, List.mem_map] at hv2
    obtain ⟨g, hg, hgv⟩ := hv2
    have := List.of_mem_filter hg
    simp only [isUntaggedVal, Bool.not_eq_true', decide_eq_false_iff_not] at this
    simp only [Function.comp_def] at hgv
    exact this (Or.inl hgv)
  · rw [parse_tagged_costs_eq_fold, parse_tagged_costs_eq_fold]
    have hgroups : allGroups (eraseUntaggedKeys resp)
        = (allGroups resp).map fun g =>
            if tagValueOf g = "untagged" then { g with Keys := [] } else g := by
      unfold allGroups eraseUntaggedKeys
      rw [List.flatMap_map, List.map_flatMap]
    rw [hgroups, List.foldl_map]
    refine List.foldl_ext _ _ _ fun acc g _ => ?_
    by_cases h : tagValueOf g = "untagged"
    · have e1 : tagValueOf { Keys := ([] : List String), Metrics := g.Metrics } = "untagged" :=
        rfl
      have e2 : groupCost { Keys := ([] : List String), Metrics := g.Metrics } = groupCost g :=
        rfl
      simp [tagStep, e1, e2, h]
    · simp [h]

/-- Witness for C10: on a response with a group genuinely tagged
`'untagged'`, the mapping lacks the key `'untagged'` and blanking that
group's keys changes nothing. -/
theorem C10_parse_tagged_costs_untagged_literal_witness :
    "untagged" ∉ (parse_tagged_costs respUntagged "Environment").by_tag_value.map Prod.fst
    ∧ parse_tagged_costs (eraseUntaggedKeys respUntagged) "Environment"
        = parse_tagged_costs respUntagged "Environment" :=
  ⟨(C10_parse_tagged_costs_untagged_literal respUntagged "Environment").1,
   (C10_parse_tagged_costs_untagged_literal respUntagged "Environment").2⟩

/-- A group with a non-empty key list is tallied under its first key. -/
theorem svcStep_ok (sc : List (String × ℚ)) (g : CEGroup) (hk : g.Keys ≠ []) :
    svcStep sc g = Except.ok (bump sc (svcName g) (groupCost g)) := by
  obtain ⟨k, t, hK⟩ : ∃ k t, g.Keys = k :: t := by
    cases hKs : g.Keys with
    | nil => exact absurd hKs hk
    | cons a b => exact ⟨a, b, rfl⟩
  simp [svcStep, pyIndex, hK, svcName, groupCost, List.headD]

/-- On a group list with no empty key list, the inner loop of
`_aggregate_service_costs` is a pure `bump` fold. -/
theorem groups_foldlM_svcStep (gs : List CEGroup) :
    ∀ init : List (String × ℚ), (∀ g ∈ gs, g.Keys ≠ []) →
      gs.foldlM svcStep init
        = Except.ok (gs.foldl (fun sc g => bump sc (svcName g) (groupCost g)) init) := by
  induction gs with
  | nil => intro init _; rfl
  | cons g gs ih =>
    intro init h
    rw [List.foldlM_cons, svcStep_ok init g (h g (List.mem_cons_self g gs))]
    show gs.foldlM svcStep (bump init (svcName g) (groupCost g)) = _
    rw [ih _ fun g' hg' => h g' (List.mem_cons_of_mem _ hg')]
    rfl

/-- On a response with no empty key list, `serviceTally` succeeds and is the
tally of (first key, unblended cost) pairs over all groups in response
order. -/
theorem serviceTally_ok (resp : CEResponse)
    (h : ∀ g ∈ allGroups resp, g.Keys ≠ []) :
    serviceTally resp
      = Except.ok (tallyPairs []
          ((allGroups resp).map fun g => (svcName g, groupCost g))) := by
  unfold serviceTally
  have houter : ∀ (rbts : List CEResultByTime) (init : List (String × ℚ)),
      (∀ tp ∈ rbts, ∀ g ∈ tp.Groups, g.Keys ≠ []) →
      rbts.foldlM (fun sc result => result.Groups.foldlM svcStep sc) init
        = Except.ok (rbts.foldl (fun sc result =>
            result.Groups.foldl (fun m g => bump m (svcName g) (groupCost g)) sc) init) := by
    intro rbts
    induction rbts with
    | nil => intro init _; rfl
    | cons tp rbts ih =>
      intro init hall
      rw [List.foldlM_cons,
        groups_foldlM_svcStep tp.Groups init (hall tp (List.mem_cons_self tp rbts))]
      show rbts.foldlM _ (tp.Groups.foldl _ init) = _
      rw [ih _ fun tp' h' => hall tp' (List.mem_cons_of_mem _ h')]
      rfl
  rw [houter resp.ResultsByTime []
    fun tp htp g hg => h g (List.mem_flatMap.mpr ⟨tp, htp, hg⟩)]
  congr 1
  unfold allGroups tallyPairs
  rw [List.foldl_map, ← foldl_foldl_flatMap]

/-- On a response with no empty key list, `_aggregate_service_costs`
succeeds with the stable descending sort of the per-service totals. -/
theorem aggregate_service_costs_ok (resp : CEResponse)
    (h : ∀ g ∈ allGroups resp, g.Keys ≠ []) :
    aggregate_service_costs resp
      = Except.ok (List.insertionSort (fun a b => b.cost ≤ a.cost)
          (serviceCostsList resp)) := by
  unfold aggregate_service_costs
  rw [serviceTally_ok resp h]
  rfl

/-- Filtering twice by the same predicate filters once. -/
theorem filter_idem (l : List α) (p : α → Bool) :
    (l.filter p).filter p = l.filter p := by
  simp [List.filter_filter]

/-- C7: on a response (whose tag groups carry keys — `Keys[0]` is a raw
index), `_aggregate_service_costs` returns one `{service, cost}` entry per
distinct service (`serviceCostsList` records them in first-appearance, i.e.
original response, order), each cost the sum of that service's group amounts
over all time periods, sorted descending by cost, and stably: the entries at
any cost level keep the order of the unsorted tally. -/
theorem C7_aggregate_by_service_sorted (resp : CEResponse)
    (h : ∀ g ∈ allGroups resp, g.Keys ≠ []) :
    ∃ res, aggregate_service_costs resp = Except.ok res
      ∧ (res.map fun e => e.service).Perm
          ((serviceCostsList resp).map fun e => e.service)
      ∧ (serviceCostsList resp).map (fun e => e.service)
          = uniqueKeep ((allGroups resp).map svcName)
      ∧ (∀ e ∈ res, e.cost
          = (((allGroups resp).filter fun g => svcName g = e.service).map groupCost).sum)
      ∧ res.Pairwise (fun a b => b.cost ≤ a.cost)
      ∧ (∀ c : ℚ, res.filter (fun e => e.cost = c)
          = (serviceCostsList resp).filter fun e => e.cost = c) := by
  refine ⟨_, aggregate_service_costs_ok resp h, ?_, ?_, ?_, ?_, ?_⟩
  · exact (List.perm_insertionSort _ _).map _
  · unfold serviceCostsList
    rw [List.map_map]
    have hc1 : ((fun e : ServiceCost => e.service) ∘ fun p : String × ℚ =>
        ({ service := p.1, cost := p.2 } : ServiceCost)) = Prod.fst := funext fun p => rfl
    rw [hc1, tallyPairs_keys _ [], List.map_map]
    have hc2 : (Prod.fst ∘ fun g : CEGroup => (svcName g, groupCost g)) = svcName :=
      funext fun g => rfl
    rw [hc2]
    rfl
  · intro e he
    have he2 : e ∈ serviceCostsList resp :=
      (List.perm_insertionSort (fun a b => b.cost ≤ a.cost)
        (serviceCostsList resp)).mem_iff.mp he
    unfold serviceCostsList at he2
    rw [List.mem_map] at he2
    obtain ⟨p, hp, rfl⟩ := he2
    have hnodup : ((tallyPairs []
        ((allGroups resp).map fun g => (svcName g, groupCost g))).map Prod.fst).Nodup := by
      rw [tallyPairs_keys _ []]
      simpa using newKeys_nodup _ []
    have hlook := lookup_eq_of_mem_nodup _ p.1 p.2 hnodup hp
    rw [tallyPairs_lookup _ [] p.1] at hlook
    simp only [List.lookup_nil] at hlook
    by_cases hmem : p.1 ∈ (((allGroups resp).map
        fun g => (svcName g, groupCost g)).map Prod.fst)
    · rw [if_pos hmem] at hlook
      have hval : p.2 = keyedSum p.1 ((allGroups resp).map fun g => (svcName g, groupCost g)) :=
        (Option.some.inj hlook).symm
      show p.2 = _
      rw [hval]
      unfold keyedSum
      rw [List.filter_map, List.map_map]
      rfl
    · rw [if_neg hmem] at hlook
      cases hlook
  · haveI : IsTotal ServiceCost (fun a b => b.cost ≤ a.cost) :=
      ⟨fun a b => le_total b.cost a.cost⟩
    haveI : IsTrans ServiceCost (fun a b => b.cost ≤ a.cost) :=
      ⟨fun _ _ _ hab hbc => le_trans hbc hab⟩
    exact List.sorted_insertionSort _ _
  · intro c
    have hpair : ((serviceCostsList resp).filter (fun e => e.cost = c)).Pairwise
        (fun a b => b.cost ≤ a.cost) := by
      refine List.pairwise_of_forall_mem_list fun a ha b hb => ?_
      have ha2 := List.of_mem_filter ha
      have hb2 := List.of_mem_filter hb
      simp only [decide_eq_true_eq] at ha2 hb2
      rw [ha2, hb2]
    have hsub : List.Sublist ((serviceCostsList resp).filter (fun e => e.cost = c))
        (List.insertionSort (fun a b => b.cost ≤ a.cost) (serviceCostsList resp)) :=
      List.sublist_insertionSort hpair (List.filter_sublist _)
    have hsub2 := hsub.filter (fun e => decide (e.cost = c))
    rw [filter_idem] at hsub2
    have hlen : ((List.insertionSort (fun a b => b.cost ≤ a.cost)
          (serviceCostsList resp)).filter (fun e => decide (e.cost = c))).length
        = ((serviceCostsList resp).filter (fun e => decide (e.cost = c))).length :=
      ((List.perm_insertionSort (fun a b => b.cost ≤ a.cost)
        (serviceCostsList resp)).filter _).length_eq
    exact (hsub2.eq_of_length hlen.symm).symm

/-- Witness for C7: per-service totals A ↦ 10, B ↦ 30, C ↦ 20 come back as
`[B, C, A]`, and the theorem applies to that response. -/
theorem C7_aggregate_by_service_sorted_witness :
    aggregate_service_costs respABC
      = Except.ok [{ service := "B", cost := 30 }, { service := "C", cost := 20 },
                   { service := "A", cost := 10 }]
    ∧ ∃ res, aggregate_service_costs respABC = Except.ok res
      ∧ (res.map fun e => e.service).Perm
          ((serviceCostsList respABC).map fun e => e.service)
      ∧ (serviceCostsList respABC).map (fun e => e.service)
          = uniqueKeep ((allGroups respABC).map svcName)
      ∧ (∀ e ∈ res, e.cost
          = (((allGroups respABC).filter fun g => svcName g = e.service).map groupCost).sum)
      ∧ res.Pairwise (fun a b => b.cost ≤ a.cost)
      ∧ (∀ c : ℚ, res.filter (fun e => e.cost = c)
          = (serviceCostsList respABC).filter fun e => e.cost = c) := by
  constructor
  · have h10 : pyFloat "10" = 10 := by simp [pyFloat, decimalVal, digitsVal, digitVal]
    have h30 : pyFloat "30" = 30 := by simp [pyFloat, decimalVal, digitsVal, digitVal]
    have h20 : pyFloat "20" = 20 := by simp [pyFloat, decimalVal, digitsVal, digitVal]
    simp only [aggregate_service_costs, serviceTally, svcStep, pyIndex, respABC, svcGroup,
      List.foldlM, Bind.bind, Except.bind, pure, Except.pure, List.getElem?_cons_zero,
      h10, h30, h20]
    norm_num [bump, List.insertionSort, List.orderedInsert]
  · exact C7_aggregate_by_service_sorted respABC (by decide)

/-- C4: `calculate_statistics` computes, independently for every
(resource_id, metric_name) pair present in the frame, the statistics of
exactly that pair's values (`mkStats`: mean, median, p95, p99, max, min and
population variance as the squared std), and the empty frame yields the
empty mapping rather than an error. -/
theorem C4_calculate_statistics_per_pair (df : List MetricRow) :
    calculate_statistics [] = []
    ∧ ∀ rid m, (∃ row ∈ df, row.resource_id = rid ∧ row.metric_name = m) →
        ((calculate_statistics df).lookup rid).bind (fun inner => inner.lookup m)
          = some (mkStats ((df.filter fun row =>
              row.resource_id = rid ∧ row.metric_name = m).map fun row => row.value)) := by
  refine ⟨rfl, ?_⟩
  rintro rid m ⟨row, hrow, hrid, hm⟩
  have hne : df.isEmpty = false := by
    cases df with
    | nil => cases hrow
    | cons a l => rfl
  unfold calculate_statistics
  rw [hne, if_neg Bool.false_ne_true]
  have hmem1 : rid ∈ uniqueKeep (df.map fun r => r.resource_id) :=
    (mem_uniqueKeep _ _).mpr (List.mem_map.mpr ⟨row, hrow, hrid⟩)
  rw [lookup_map_keyed _ _ rid hmem1]
  rw [Option.some_bind]
  have hrowf : row ∈ df.filter fun r => r.resource_id = rid := by
    rw [List.mem_filter]
    exact ⟨hrow, by simp [hrid]⟩
  have hmem2 : m ∈ uniqueKeep ((df.filter fun r => r.resource_id = rid).map
      fun r => r.metric_name) :=
    (mem_uniqueKeep _ _).mpr (List.mem_map.mpr ⟨row, hrowf, hm⟩)
  rw [lookup_map_keyed _ _ m hmem2]
  congr 1
  rw [List.filter_filter]
  simp only [Bool.decide_and]
  refine congrArg mkStats (congrArg (List.map fun x : MetricRow => x.value)
    (List.filter_congr fun a _ => ?_))
  rw [Bool.and_comm]

/-- Witness for C4: the values 10, 20, 30, 40, 50 for one pair give
mean 30, min 10, max 50 (and median 30, p95 48, p99 49.6, variance 200). -/
theorem C4_calculate_statistics_per_pair_witness :
    (∃ row ∈ rowsC4, row.resource_id = "i-1" ∧ row.metric_name = "CPUUtilization")
    ∧ ∃ s, ((calculate_statistics rowsC4).lookup "i-1").bind
          (fun inner => inner.lookup "CPUUtilization") = some s
        ∧ s.mean = 30 ∧ s.min = 10 ∧ s.max = 50 := by
  have hpair : ∃ row ∈ rowsC4, row.resource_id = "i-1" ∧ row.metric_name = "CPUUtilization" :=
    ⟨rowC4 10, by simp [rowsC4], rfl, rfl⟩
  have hs := (C4_calculate_statistics_per_pair rowsC4).2 "i-1" "CPUUtilization" hpair
  have hv : ((rowsC4.filter fun row =>
      row.resource_id = "i-1" ∧ row.metric_name = "CPUUtilization").map fun row => row.value)
      = [10, 20, 30, 40, 50] := by
    simp [rowsC4, rowC4]
  rw [hv] at hs
  refine ⟨hpair, mkStats [10, 20, 30, 40, 50], hs, ?_, ?_, ?_⟩
  · norm_num [mkStats, pyMean]
  · norm_num [mkStats, pyMin, min_def]
  · norm_num [mkStats, pyMax, max_def]

end AwsCostOpt
